import Mathlib

/-!
Shallow embedding of the tic-tac-toe game from `src/main.rs`.

The Rust program keeps a `Board = [[CellState; 3]; 3]` (row-major), a
`Player`, and runs a round loop: clear screen, `draw_board`, then an inner
loop calling `get_input` until a move succeeds, then `check_win`; on a win
it prints and breaks, otherwise it calls `game.switch()` and loops.

Terminal I/O is modelled by passing the pressed key characters in
explicitly and collecting the would-be output (board draws and prompts) as
a list of events.  Non-character keys (arrows etc.) behave exactly like a
character that resolves to no cell, so inputs are modelled as `Char`.
-/

inductive Player where
  | Noughts : Player
  | Crosses : Player
deriving DecidableEq, Fintype

def Player.to_letter : Player → Char
  | Player.Noughts => 'O'
  | Player.Crosses => 'X'

def Player.to_number : Player → Int
  | Player.Noughts => 2
  | Player.Crosses => 1

inductive CellState where
  | Empty : CellState
  | Nought : CellState
  | Cross : CellState
deriving DecidableEq, Fintype

/-- The Rust `CellState::to_player`, returning `Result<Player, &str>`. -/
def CellState.to_player : CellState → Except String Player
  | CellState.Empty => Except.error "Cell has not been played!"
  | CellState.Nought => Except.ok Player.Noughts
  | CellState.Cross => Except.ok Player.Crosses

/-- The Rust `Board` is `[[CellState; 3]; 3]`: a fixed 3×3 array, here a
structure with one field per cell, `cRC` being row R column C. -/
structure Board where
  c00 : CellState
  c01 : CellState
  c02 : CellState
  c10 : CellState
  c11 : CellState
  c12 : CellState
  c20 : CellState
  c21 : CellState
  c22 : CellState
deriving DecidableEq

instance : Fintype Board :=
  Fintype.ofEquiv
    (CellState × CellState × CellState × CellState × CellState ×
      CellState × CellState × CellState × CellState)
    ⟨fun t =>
        ⟨t.1, t.2.1, t.2.2.1, t.2.2.2.1, t.2.2.2.2.1, t.2.2.2.2.2.1,
          t.2.2.2.2.2.2.1, t.2.2.2.2.2.2.2.1, t.2.2.2.2.2.2.2.2⟩,
      fun b =>
        (b.c00, b.c01, b.c02, b.c10, b.c11, b.c12, b.c20, b.c21, b.c22),
      fun _ => rfl, fun _ => rfl⟩

/-- Reading `board[row][col]` (indices are always in range in the Rust
program). -/
def Board.get (b : Board) (r c : Fin 3) : CellState :=
  match r, c with
  | 0, 0 => b.c00
  | 0, 1 => b.c01
  | 0, 2 => b.c02
  | 1, 0 => b.c10
  | 1, 1 => b.c11
  | 1, 2 => b.c12
  | 2, 0 => b.c20
  | 2, 1 => b.c21
  | 2, 2 => b.c22

/-- Writing `board[row][col] = v` (array element assignment). -/
def Board.set (b : Board) (r c : Fin 3) (v : CellState) : Board :=
  match r, c with
  | 0, 0 => ⟨v, b.c01, b.c02, b.c10, b.c11, b.c12, b.c20, b.c21, b.c22⟩
  | 0, 1 => ⟨b.c00, v, b.c02, b.c10, b.c11, b.c12, b.c20, b.c21, b.c22⟩
  | 0, 2 => ⟨b.c00, b.c01, v, b.c10, b.c11, b.c12, b.c20, b.c21, b.c22⟩
  | 1, 0 => ⟨b.c00, b.c01, b.c02, v, b.c11, b.c12, b.c20, b.c21, b.c22⟩
  | 1, 1 => ⟨b.c00, b.c01, b.c02, b.c10, v, b.c12, b.c20, b.c21, b.c22⟩
  | 1, 2 => ⟨b.c00, b.c01, b.c02, b.c10, b.c11, v, b.c20, b.c21, b.c22⟩
  | 2, 0 => ⟨b.c00, b.c01, b.c02, b.c10, b.c11, b.c12, v, b.c21, b.c22⟩
  | 2, 1 => ⟨b.c00, b.c01, b.c02, b.c10, b.c11, b.c12, b.c20, v, b.c22⟩
  | 2, 2 => ⟨b.c00, b.c01, b.c02, b.c10, b.c11, b.c12, b.c20, b.c21, v⟩

structure Game where
  board : Board
  player : Player
deriving DecidableEq

/-- The Rust `Game::switch`. -/
def Game.switch (g : Game) : Game :=
  match g.player with
  | Player.Noughts => ⟨g.board, Player.Crosses⟩
  | Player.Crosses => ⟨g.board, Player.Noughts⟩

/-! ## Win detection (`check_win`) -/

/-- One iteration block of the vertical loop: `col = board[0][i_col]`;
if `col == board[1][i_col] && col == board[2][i_col]` and the cell maps to
a player, that player is returned (the Rust `return Some(player)`);
otherwise the loop continues (`none`). -/
def col_check (board : Board) (i_col : Fin 3) : Option Player :=
  let col := board.get 0 i_col
  if col = board.get 1 i_col ∧ col = board.get 2 i_col then
    match col.to_player with
    | Except.ok player => some player
    | Except.error _ => none
  else
    none

/-- The inner `for col in row` loop of the horizontal check: `prev` starts
at the first cell; on a mismatch `all_equal = false` and the loop breaks,
otherwise `prev` becomes the current cell. -/
def all_equal_loop (prev : CellState) : List CellState → Bool
  | [] => true
  | col :: rest => if col ≠ prev then false else all_equal_loop col rest

/-- One iteration of the horizontal loop over `row = board[r]`. -/
def row_check (board : Board) (r : Fin 3) : Option Player :=
  let all_equal := all_equal_loop (board.get r 0)
    [board.get r 0, board.get r 1, board.get r 2]
  if all_equal then
    match (board.get r 0).to_player with
    | Except.ok player => some player
    | Except.error _ => none
  else
    none

/-- The inner loop of the diagonal check, comparing `board[col]` with
`board[prev]` along the coordinate list. -/
def diag_all_equal (board : Board) (prev : Fin 3 × Fin 3) :
    List (Fin 3 × Fin 3) → Bool
  | [] => true
  | col :: rest =>
    if board.get col.1 col.2 ≠ board.get prev.1 prev.2 then false
    else diag_all_equal board col rest

/-- One iteration of the diagonal loop: `row` is one of the two coordinate
triples; `prev` starts at `row[0]`. -/
def diag_check (board : Board) (row : List (Fin 3 × Fin 3)) : Option Player :=
  match row with
  | [] => none
  | first :: _ =>
    if diag_all_equal board first row then
      match (board.get first.1 first.2).to_player with
      | Except.ok player => some player
      | Except.error _ => none
    else
      none

/-- The Rust `check_win`: the vertical loop over columns 0,1,2, then the horizontal
loop over rows 0,1,2, then the diagonal loop over the two coordinate
triples `[(0,0),(1,1),(2,2)]` and `[(0,2),(1,1),(2,0)]`; each loop returns
the first winner it finds, and `none` falls through to the next block. -/
def check_win (board : Board) : Option Player :=
  match ([0, 1, 2] : List (Fin 3)).findSome? (col_check board) with
  | some player => some player
  | none =>
    match ([0, 1, 2] : List (Fin 3)).findSome? (row_check board) with
    | some player => some player
    | none =>
      ([[((0 : Fin 3), (0 : Fin 3)), (1, 1), (2, 2)],
        [((0 : Fin 3), (2 : Fin 3)), (1, 1), (2, 0)]]).findSome?
        (diag_check board)

/-! ## Specification-side win predicates (from the spec's words, for
comparison with `check_win`) -/

/-- The mark a player places (spec: PlayerA/Crosses writes X, Noughts O). -/
def markOf : Player → CellState
  | Player.Noughts => CellState.Nought
  | Player.Crosses => CellState.Cross

/-- The owner of a non-Empty cell, spec side. -/
def cell_owner : CellState → Option Player
  | CellState.Empty => none
  | CellState.Nought => some Player.Noughts
  | CellState.Cross => some Player.Crosses

/-- The 8 lines (3 rows, 3 columns, 2 diagonals) as coordinate triples. -/
def all_lines : List (List (Fin 3 × Fin 3)) :=
  [[(0, 0), (0, 1), (0, 2)],
   [(1, 0), (1, 1), (1, 2)],
   [(2, 0), (2, 1), (2, 2)],
   [(0, 0), (1, 0), (2, 0)],
   [(0, 1), (1, 1), (2, 1)],
   [(0, 2), (1, 2), (2, 2)],
   [(0, 0), (1, 1), (2, 2)],
   [(0, 2), (1, 1), (2, 0)]]

/-- Spec: "some row, column, or diagonal has all three cells non-Empty and
equal to player p's mark". -/
def wins_spec (b : Board) (p : Player) : Prop :=
  ∃ line ∈ all_lines, ∀ cd ∈ line,
    b.get cd.1 cd.2 ≠ CellState.Empty ∧ b.get cd.1 cd.2 = markOf p

instance (b : Board) (p : Player) : Decidable (wins_spec b p) := by
  unfold wins_spec
  infer_instance

/-- The lines in the order `check_win` visits them: columns 0,1,2, then
rows 0,1,2, then the main diagonal, then the anti-diagonal (spec side, for
the first-found-line claim). -/
def ordered_lines : List (List (Fin 3 × Fin 3)) :=
  [[(0, 0), (1, 0), (2, 0)],
   [(0, 1), (1, 1), (2, 1)],
   [(0, 2), (1, 2), (2, 2)],
   [(0, 0), (0, 1), (0, 2)],
   [(1, 0), (1, 1), (1, 2)],
   [(2, 0), (2, 1), (2, 2)],
   [(0, 0), (1, 1), (2, 2)],
   [(0, 2), (1, 1), (2, 0)]]

/-- Spec side: a complete line (all three cells equal and non-Empty) is
owned by the player whose mark fills it; an incomplete line has no owner. -/
def line_owner (b : Board) (line : List (Fin 3 × Fin 3)) : Option Player :=
  match line.map (fun cd => b.get cd.1 cd.2) with
  | [x, y, z] =>
    if x ≠ CellState.Empty ∧ x = y ∧ y = z then cell_owner x else none
  | _ => none

/-- Spec side: the owner of the earliest complete line in the fixed
column-row-diagonal order, `none` when no line is complete. -/
def first_line_owner (b : Board) : Option Player :=
  ordered_lines.findSome? (line_owner b)

/-! ## Input handling (`get_input`) and the main loop -/

/-- The digit-to-coordinate match inside `get_input`.  `digit` is
`digit.trunc() as i32` where `digit` came from parsing the pressed digit
character as `f32`, i.e. the numeric value of the digit. -/
def digit_to_index (digit : Nat) : Option (Fin 3 × Fin 3) :=
  match digit with
  | 1 => some (0, 0)
  | 2 => some (0, 1)
  | 3 => some (0, 2)
  | 4 => some (1, 0)
  | 5 => some (1, 1)
  | 6 => some (1, 2)
  | 7 => some (2, 0)
  | 8 => some (2, 1)
  | 9 => some (2, 2)
  | _ => none

/-- The input-resolution path of `get_input`: only `Key::Char(char)` with
`char.is_digit(10)` (an ASCII decimal digit) reaches the digit match;
`parse::<f32>` of a single decimal digit character never fails and yields
the digit's numeric value `key.toNat - '0'.toNat`. -/
def resolve_key (key : Char) : Option (Fin 3 × Fin 3) :=
  if key.isDigit then digit_to_index (key.toNat - '0'.toNat) else none

/-- Console output produced by the game: a full board grid draw
(`draw_board` call) or the two-line prompt naming the active player. -/
inductive OutEvent where
  | boardDraw : Board → OutEvent
  | prompt : Player → OutEvent
deriving DecidableEq

def OutEvent.isPrompt : OutEvent → Bool
  | OutEvent.prompt _ => true
  | _ => false

def OutEvent.isBoardDraw : OutEvent → Bool
  | OutEvent.boardDraw _ => true
  | _ => false

/-- Result of one `get_input` call: the updated game, the returned `bool`
(whether a move was placed), and the console output it printed. -/
structure InputResult where
  game : Game
  moved : Bool
  out : List OutEvent
deriving DecidableEq

/-- The Rust `get_input(game, draw)` reading the single keypress `key`: prints the
prompt when `draw` is true; a digit key resolving to a cell index marks
the cell with the current player's mark and returns `true` when the cell
is `Empty`; every other case falls through and returns `false`. -/
def get_input (game : Game) (draw : Bool) (key : Char) : InputResult :=
  let out := if draw then [OutEvent.prompt game.player] else []
  match resolve_key key with
  | some i =>
    let row := i.1
    let cell := i.2
    match game.board.get row cell with
    | CellState.Empty =>
      let mark :=
        match game.player with
        | Player.Noughts => CellState.Nought
        | Player.Crosses => CellState.Cross
      ⟨⟨game.board.set row cell mark, game.player⟩, true, out⟩
    | _ => ⟨game, false, out⟩
  | none => ⟨game, false, out⟩

/-- The inner `loop` of `main`: call `get_input` until it returns `true`,
setting `draw = false` after every failed attempt.  The available
keypresses are passed as a list; if they run out the loop is still
blocked waiting for input (`moved = false`). -/
def input_loop : Game → Bool → List Char → InputResult
  | game, _, [] => ⟨game, false, []⟩
  | game, draw, key :: keys =>
    let r := get_input game draw key
    if r.moved then ⟨r.game, true, r.out⟩
    else
      let rest := input_loop r.game false keys
      ⟨rest.game, rest.moved, r.out ++ rest.out⟩

/-- Outcome of one iteration of `main`'s outer `loop`:
`won p g` — `check_win` found winner `p`, the win is printed and the loop
breaks; `next g` — no winner, `game.switch()` ran and the loop repeats;
`pending g` — the supplied keypresses ran out before a successful move. -/
inductive RoundOutcome where
  | won : Player → Game → RoundOutcome
  | next : Game → RoundOutcome
  | pending : Game → RoundOutcome
deriving DecidableEq

/-- One iteration of `main`'s outer `loop`: clear screen, `draw_board`,
inner input loop, then `check_win`; a winner breaks the loop, otherwise
`game.switch()`. -/
def round_step (game : Game) (keys : List Char) : RoundOutcome × List OutEvent :=
  let r := input_loop game true keys
  let out := OutEvent.boardDraw game.board :: r.out
  if r.moved then
    match check_win r.game.board with
    | some player => (RoundOutcome.won player r.game, out)
    | none => (RoundOutcome.next r.game.switch, out)
  else
    (RoundOutcome.pending r.game, out)

/-- State of a multi-round run of `main`'s outer loop. -/
inductive RunState where
  | playing : Game → RunState
  | won : Player → Game → RunState
  | rejected : Game → RunState
deriving DecidableEq

def RunState.game : RunState → Game
  | RunState.playing g => g
  | RunState.won _ g => g
  | RunState.rejected g => g

def RunState.isPlaying : RunState → Bool
  | RunState.playing _ => true
  | _ => false

/-- Run `main`'s outer loop feeding one keypress per round: `playing g`
means the loop is back at its top with game `g` (no win was ever found),
`won` means the loop broke on a win, `rejected` means some supplied
keypress was rejected. -/
def run_keys : Game → List Char → RunState
  | g, [] => RunState.playing g
  | g, key :: keys =>
    match round_step g [key] with
    | (RoundOutcome.won p g', _) => RunState.won p g'
    | (RoundOutcome.next g', _) => run_keys g' keys
    | (RoundOutcome.pending g', _) => RunState.rejected g'

/-- The initial game of `main`: fully `Empty` board, `Crosses` active. -/
def initGame : Game :=
  ⟨⟨CellState.Empty, CellState.Empty, CellState.Empty,
    CellState.Empty, CellState.Empty, CellState.Empty,
    CellState.Empty, CellState.Empty, CellState.Empty⟩,
   Player.Crosses⟩

/-! ## Rendering (`get_cell` / `draw_board`) -/

/-- The Rust `get_cell` first increments the running cell counter, then renders the
cell: the (now 1-based) counter for an `Empty` cell, `[O]`/`[X]` for a
marked one.  Returns the rendered token and the updated counter. -/
def get_cell (state : CellState) (cell : Nat) : String × Nat :=
  let cell := cell + 1
  (match state with
   | CellState.Empty => "[" ++ toString cell ++ "]"
   | CellState.Nought => "[O]"
   | CellState.Cross => "[X]",
   cell)

/-- One iteration of `draw_board`'s `for row in board` loop: the
`println!("{} {} {}", ...)` line for one row, threading the counter. -/
def draw_row (c0 c1 c2 : CellState) (i : Nat) : String × Nat :=
  let r0 := get_cell c0 i
  let r1 := get_cell c1 r0.2
  let r2 := get_cell c2 r1.2
  (r0.1 ++ " " ++ r1.1 ++ " " ++ r2.1, r2.2)

/-- The Rust `draw_board`: counter starts at 0, the three rows are printed in
order. -/
def draw_board (board : Board) : List String :=
  let l0 := draw_row board.c00 board.c01 board.c02 0
  let l1 := draw_row board.c10 board.c11 board.c12 l0.2
  let l2 := draw_row board.c20 board.c21 board.c22 l1.2
  [l0.1, l1.1, l2.1]

/-- Spec side: the token for one cell, `"[X]"`/`"[O]"` if marked, `"[n]"`
with `n` the cell's 1-based row-major position if `Empty`. -/
def spec_token (state : CellState) (n : Nat) : String :=
  match state with
  | CellState.Empty => "[" ++ toString n ++ "]"
  | CellState.Nought => "[O]"
  | CellState.Cross => "[X]"

/-- Spec side: three lines of three bracketed tokens joined by a single
space, positions 1–9 in row-major order. -/
def render_spec (b : Board) : List String :=
  [spec_token b.c00 1 ++ " " ++ spec_token b.c01 2 ++ " " ++ spec_token b.c02 3,
   spec_token b.c10 4 ++ " " ++ spec_token b.c11 5 ++ " " ++ spec_token b.c12 6,
   spec_token b.c20 7 ++ " " ++ spec_token b.c21 8 ++ " " ++ spec_token b.c22 9]

/-- Spec side: all 9 cells of a board are occupied. -/
def board_full (b : Board) : Prop :=
  ∀ r c : Fin 3, b.get r c ≠ CellState.Empty

instance (b : Board) : Decidable (board_full b) := by
  unfold board_full
  infer_instance

/-- Spec side: player `p` owns every cell of `line`. -/
def line_won (b : Board) (p : Player) (line : List (Fin 3 × Fin 3)) : Prop :=
  ∀ cd ∈ line,
    b.get cd.1 cd.2 ≠ CellState.Empty ∧ b.get cd.1 cd.2 = markOf p

instance (b : Board) (p : Player) (line : List (Fin 3 × Fin 3)) :
    Decidable (line_won b p line) := by
  unfold line_won
  infer_instance

/-- A board on which both players own a complete line (unreachable in
legal play, but `check_win` accepts arbitrary boards): row 0 is all
Crosses, row 1 all Noughts. -/
def boardTwoWinners : Board :=
  ⟨CellState.Cross, CellState.Cross, CellState.Cross,
   CellState.Nought, CellState.Nought, CellState.Nought,
   CellState.Empty, CellState.Empty, CellState.Empty⟩

/-- A board whose only complete line is row 0, all Crosses. -/
def boardTopRow : Board :=
  ⟨CellState.Cross, CellState.Cross, CellState.Cross,
   CellState.Empty, CellState.Nought, CellState.Nought,
   CellState.Empty, CellState.Empty, CellState.Empty⟩

/-- A game in which cell (0,0) is already occupied. -/
def gameOccupied : Game := ⟨boardTopRow, Player.Noughts⟩

/-- Keypresses producing a full board with no winning line (spec
scenario 3: a drawn game). -/
def drawKeys : List Char := ['1', '2', '3', '5', '4', '6', '8', '7', '9']

/-- The game an outer-loop iteration goes on with. -/
def RoundOutcome.game : RoundOutcome → Game
  | RoundOutcome.won _ g => g
  | RoundOutcome.next g => g
  | RoundOutcome.pending g => g

/-! # Theorems -/

/-! ## Characterisation of `check_win` -/

lemma col_check_eq_line_owner (b : Board) (i : Fin 3) :
    col_check b i = line_owner b [(0, i), (1, i), (2, i)] := by
  simp only [col_check, line_owner, List.map_cons, List.map_nil]
  generalize b.get 0 i = x
  generalize b.get 1 i = y
  generalize b.get 2 i = z
  cases x <;> cases y <;> cases z <;> rfl

lemma row_check_eq_line_owner (b : Board) (r : Fin 3) :
    row_check b r = line_owner b [(r, 0), (r, 1), (r, 2)] := by
  simp only [row_check, line_owner, List.map_cons, List.map_nil]
  generalize b.get r 0 = x
  generalize b.get r 1 = y
  generalize b.get r 2 = z
  cases x <;> cases y <;> cases z <;> rfl

lemma diag_check_eq_line_owner_main (b : Board) :
    diag_check b [(0, 0), (1, 1), (2, 2)] =
      line_owner b [(0, 0), (1, 1), (2, 2)] := by
  simp only [diag_check, diag_all_equal, line_owner, List.map_cons,
    List.map_nil]
  generalize b.get 0 0 = x
  generalize b.get 1 1 = y
  generalize b.get 2 2 = z
  cases x <;> cases y <;> cases z <;> rfl

lemma diag_check_eq_line_owner_anti (b : Board) :
    diag_check b [(0, 2), (1, 1), (2, 0)] =
      line_owner b [(0, 2), (1, 1), (2, 0)] := by
  simp only [diag_check, diag_all_equal, line_owner, List.map_cons,
    List.map_nil]
  generalize b.get 0 2 = x
  generalize b.get 1 1 = y
  generalize b.get 2 0 = z
  cases x <;> cases y <;> cases z <;> rfl

/-- The function `check_win` is exactly the first-complete-line scan in
column-row-diagonal order. -/
lemma check_win_eq_first_line_owner (b : Board) :
    check_win b = first_line_owner b := by
  unfold check_win first_line_owner ordered_lines
  simp only [List.findSome?_cons, List.findSome?_nil,
    col_check_eq_line_owner b 0, col_check_eq_line_owner b 1,
    col_check_eq_line_owner b 2, row_check_eq_line_owner b 0,
    row_check_eq_line_owner b 1, row_check_eq_line_owner b 2,
    diag_check_eq_line_owner_main b, diag_check_eq_line_owner_anti b]
  cases line_owner b [(0, 0), (1, 0), (2, 0)] <;>
    cases line_owner b [(0, 1), (1, 1), (2, 1)] <;>
    cases line_owner b [(0, 2), (1, 2), (2, 2)] <;>
    cases line_owner b [(0, 0), (0, 1), (0, 2)] <;>
    cases line_owner b [(1, 0), (1, 1), (1, 2)] <;>
    cases line_owner b [(2, 0), (2, 1), (2, 2)] <;>
    cases line_owner b [(0, 0), (1, 1), (2, 2)] <;>
    cases line_owner b [(0, 2), (1, 1), (2, 0)] <;>
    rfl

lemma line_owner_eq_some_iff (b : Board) (p : Player) (c1 c2 c3 : Fin 3 × Fin 3) :
    line_owner b [c1, c2, c3] = some p ↔ line_won b p [c1, c2, c3] := by
  simp only [line_owner, line_won, List.map_cons, List.map_nil,
    List.forall_mem_cons, List.mem_nil_iff, false_implies, forall_true_iff,
    and_true]
  generalize b.get c1.1 c1.2 = x
  generalize b.get c2.1 c2.2 = y
  generalize b.get c3.1 c3.2 = z
  cases x <;> cases y <;> cases z <;> cases p <;> decide

lemma line_owner_eq_none_iff (b : Board) (c1 c2 c3 : Fin 3 × Fin 3) :
    line_owner b [c1, c2, c3] = none ↔
      ∀ p : Player, ¬ line_won b p [c1, c2, c3] := by
  simp only [line_owner, line_won, List.map_cons, List.map_nil,
    List.forall_mem_cons, List.mem_nil_iff, false_implies, forall_true_iff,
    and_true]
  generalize b.get c1.1 c1.2 = x
  generalize b.get c2.1 c2.2 = y
  generalize b.get c3.1 c3.2 = z
  cases x <;> cases y <;> cases z <;> decide

lemma mem_all_lines_of_mem_ordered {line : List (Fin 3 × Fin 3)}
    (h : line ∈ ordered_lines) : line ∈ all_lines := by
  fin_cases h <;> decide

lemma mem_ordered_of_mem_all_lines {line : List (Fin 3 × Fin 3)}
    (h : line ∈ all_lines) : line ∈ ordered_lines := by
  fin_cases h <;> decide

lemma three_of_mem_ordered {line : List (Fin 3 × Fin 3)}
    (h : line ∈ ordered_lines) : ∃ c1 c2 c3, line = [c1, c2, c3] := by
  fin_cases h <;> exact ⟨_, _, _, rfl⟩

lemma first_line_owner_some {b : Board} {p : Player}
    (h : first_line_owner b = some p) : wins_spec b p := by
  rw [first_line_owner, List.findSome?_eq_some_iff] at h
  obtain ⟨l1, a, l2, heq, ha, -⟩ := h
  have hmem : a ∈ ordered_lines := by
    rw [heq]
    exact List.mem_append_right _ (List.mem_cons_self _ _)
  obtain ⟨c1, c2, c3, rfl⟩ := three_of_mem_ordered hmem
  exact ⟨_, mem_all_lines_of_mem_ordered hmem,
    (line_owner_eq_some_iff b p c1 c2 c3).mp ha⟩

lemma first_line_owner_none (b : Board) :
    first_line_owner b = none ↔ ∀ p, ¬ wins_spec b p := by
  rw [first_line_owner, List.findSome?_eq_none_iff]
  constructor
  · intro h p hw
    obtain ⟨line, hmem, hwon⟩ := hw
    have hmem' : line ∈ ordered_lines := mem_ordered_of_mem_all_lines hmem
    obtain ⟨c1, c2, c3, rfl⟩ := three_of_mem_ordered hmem'
    exact (line_owner_eq_none_iff b c1 c2 c3).mp (h _ hmem') p hwon
  · intro h line hline
    obtain ⟨c1, c2, c3, rfl⟩ := three_of_mem_ordered hline
    rw [line_owner_eq_none_iff]
    intro p hwon
    exact h p ⟨_, mem_all_lines_of_mem_ordered hline, hwon⟩

/-- C10: `check_win` checks lines in the fixed order columns 0..2, rows
0..2, then the two diagonals, and returns the owner of the first complete
line found — on any board, including ones where two different players each
own a complete line, it equals the earliest-complete-line scan in that
order. -/
theorem C10_check_win_order (b : Board) : check_win b = first_line_owner b :=
  check_win_eq_first_line_owner b

/-- C1 counterexample: on a board where row 0 is all Crosses and row 1 all
Noughts, Noughts has a complete line yet `check_win` does not return
`Some(Noughts)` (it returns the first-found winner, Crosses), so the
claimed "if and only if" fails at this board with p = Noughts. -/
theorem C1_counterexample :
    wins_spec boardTwoWinners Player.Noughts ∧
      check_win boardTwoWinners ≠ some Player.Noughts := by
  constructor
  · exact ⟨[(1, 0), (1, 1), (1, 2)], by decide, by decide⟩
  · decide

/-- C1 (amended): `check_win b = Some(p)` implies some line is entirely
p's mark; `check_win b = None` iff no player has a complete line (in
particular on the fully Empty board); and on every board where the two
players do not both own complete lines — every board reachable in play —
the if-and-only-if holds exactly as claimed. -/
theorem C1_check_win_amended :
    (∀ (b : Board) (p : Player),
      (check_win b = some p → wins_spec b p) ∧
      (check_win b = none ↔ ∀ q, ¬ wins_spec b q) ∧
      (¬ (wins_spec b Player.Crosses ∧ wins_spec b Player.Noughts) →
        (check_win b = some p ↔ wins_spec b p))) ∧
    check_win initGame.board = none := by
  constructor
  · intro b p
    have heq := check_win_eq_first_line_owner b
    have hsound : check_win b = some p → wins_spec b p := by
      intro h
      exact first_line_owner_some (heq.symm.trans h)
    refine ⟨hsound, ?_, ?_⟩
    · rw [heq]
      exact first_line_owner_none b
    · intro hnot
      refine ⟨hsound, ?_⟩
      intro hw
      rcases hq : check_win b with - | q
      · have hnone : first_line_owner b = none := heq.symm.trans hq
        exact absurd hw ((first_line_owner_none b).mp hnone p)
      · have hwq : wins_spec b q :=
          first_line_owner_some (heq.symm.trans hq)
        cases p <;> cases q
        · rfl
        · exact absurd ⟨hwq, hw⟩ hnot
        · exact absurd ⟨hw, hwq⟩ hnot
        · rfl
  · decide

/-- C1 witness: the amended theorem applied to the board whose only
complete line is the all-Crosses top row. -/
theorem C1_witness : wins_spec boardTopRow Player.Crosses :=
  ((C1_check_win_amended.1 boardTopRow Player.Crosses).2.2
    (by decide)).mp (by decide)

/-! ## Basic facts about moves and the loops -/

lemma Board.get_set (b : Board) (r0 c0 r c : Fin 3) (v : CellState) :
    (b.set r0 c0 v).get r c = if r = r0 ∧ c = c0 then v else b.get r c := by
  fin_cases r0 <;> fin_cases c0 <;> fin_cases r <;> fin_cases c <;> rfl

lemma Game.switch_board (g : Game) : g.switch.board = g.board := by
  obtain ⟨b, p⟩ := g
  cases p <;> rfl

lemma get_input_none {g : Game} {d : Bool} {k : Char}
    (h : resolve_key k = none) :
    get_input g d k =
      ⟨g, false, if d then [OutEvent.prompt g.player] else []⟩ := by
  simp only [get_input, h]

lemma get_input_occupied {g : Game} {d : Bool} {k : Char} {i : Fin 3 × Fin 3}
    (hk : resolve_key k = some i)
    (hocc : g.board.get i.1 i.2 ≠ CellState.Empty) :
    get_input g d k =
      ⟨g, false, if d then [OutEvent.prompt g.player] else []⟩ := by
  simp only [get_input, hk]

lemma get_input_empty {g : Game} {d : Bool} {k : Char} {i : Fin 3 × Fin 3}
    (hk : resolve_key k = some i)
    (hemp : g.board.get i.1 i.2 = CellState.Empty) :
    get_input g d k =
      ⟨⟨g.board.set i.1 i.2 (markOf g.player), g.player⟩, true,
        if d then [OutEvent.prompt g.player] else []⟩ := by
  obtain ⟨gb, gp⟩ := g
  simp only [get_input, hk, hemp]
  cases gp <;> rfl

lemma get_input_player (g : Game) (d : Bool) (k : Char) :
    (get_input g d k).game.player = g.player := by
  rcases hk : resolve_key k with - | i
  · rw [get_input_none hk]
  · rcases hc : g.board.get i.1 i.2 with - | - | -
    · rw [get_input_empty hk hc]
    · rw [get_input_occupied hk (by rw [hc]; exact fun h => nomatch h)]
    · rw [get_input_occupied hk (by rw [hc]; exact fun h => nomatch h)]

lemma get_input_out (g : Game) (d : Bool) (k : Char) :
    (get_input g d k).out = if d then [OutEvent.prompt g.player] else [] := by
  rcases hk : resolve_key k with - | i
  · rw [get_input_none hk]
  · rcases hc : g.board.get i.1 i.2 with - | - | -
    · rw [get_input_empty hk hc]
    · rw [get_input_occupied hk (by rw [hc]; exact fun h => nomatch h)]
    · rw [get_input_occupied hk (by rw [hc]; exact fun h => nomatch h)]

lemma get_input_monotone (g : Game) (d : Bool) (k : Char) (r c : Fin 3)
    (h : g.board.get r c ≠ CellState.Empty) :
    (get_input g d k).game.board.get r c ≠ CellState.Empty := by
  rcases hk : resolve_key k with - | i
  · rw [get_input_none hk]; exact h
  · rcases hc : g.board.get i.1 i.2 with - | - | -
    · rw [get_input_empty hk hc]
      show (g.board.set i.1 i.2 (markOf g.player)).get r c ≠ CellState.Empty
      rw [Board.get_set]
      by_cases hrc : r = i.1 ∧ c = i.2
      · rw [if_pos hrc]
        cases g.player <;> exact fun hx => nomatch hx
      · rw [if_neg hrc]; exact h
    · rw [get_input_occupied hk (by rw [hc]; exact fun hx => nomatch hx)]
      exact h
    · rw [get_input_occupied hk (by rw [hc]; exact fun hx => nomatch hx)]
      exact h

lemma input_loop_player :
    ∀ (keys : List Char) (g : Game) (d : Bool),
      (input_loop g d keys).game.player = g.player := by
  intro keys
  induction keys with
  | nil => intro g d; rfl
  | cons k ks ih =>
    intro g d
    show (input_loop g d (k :: ks)).game.player = g.player
    rw [input_loop]
    rcases hm : (get_input g d k).moved with - | -
    · simp only [hm, if_neg (Bool.false_ne_true)]
      rw [ih (get_input g d k).game false]
      exact get_input_player g d k
    · simp only [hm, if_pos rfl]
      exact get_input_player g d k

lemma input_loop_monotone :
    ∀ (keys : List Char) (g : Game) (d : Bool) (r c : Fin 3),
      g.board.get r c ≠ CellState.Empty →
      (input_loop g d keys).game.board.get r c ≠ CellState.Empty := by
  intro keys
  induction keys with
  | nil => intro g d r c h; exact h
  | cons k ks ih =>
    intro g d r c h
    show (input_loop g d (k :: ks)).game.board.get r c ≠ CellState.Empty
    rw [input_loop]
    rcases hm : (get_input g d k).moved with - | -
    · simp only [hm, if_neg (Bool.false_ne_true)]
      exact ih _ false r c (get_input_monotone g d k r c h)
    · simp only [hm, if_pos rfl]
      exact get_input_monotone g d k r c h

lemma Game.switch_player (g : Game) :
    g.switch.player =
      match g.player with
      | Player.Noughts => Player.Crosses
      | Player.Crosses => Player.Noughts := by
  obtain ⟨b, p⟩ := g
  cases p <;> rfl

/-- C3: attempting to mark an occupied cell always fails, for either
player: `get_input` returns `false` and leaves the game (board and active
player) unchanged, and the inner input loop goes on with the very same
game, so the same player moves again. -/
theorem C3_occupied_rejected :
    ∀ (g : Game) (draw : Bool) (key : Char) (i : Fin 3 × Fin 3),
      resolve_key key = some i →
      g.board.get i.1 i.2 ≠ CellState.Empty →
      ((get_input g draw key).game = g ∧
       (get_input g draw key).moved = false ∧
       ∀ keys : List Char,
         (input_loop g draw (key :: keys)).game =
           (input_loop g false keys).game ∧
         (input_loop g draw (key :: keys)).moved =
           (input_loop g false keys).moved) := by
  intro g draw key i hk hocc
  have hg := @get_input_occupied g draw key i hk hocc
  refine ⟨by rw [hg], by rw [hg], ?_⟩
  intro keys
  rw [input_loop, hg]
  exact ⟨rfl, rfl⟩

/-- C3 witness: Crosses already owns cell (0,0) of `gameOccupied`; the
active player is Noughts and its attempt on key '1' is rejected without
any change. -/
theorem C3_witness :
    (get_input gameOccupied true '1').game = gameOccupied ∧
      (get_input gameOccupied true '1').moved = false := by
  have h := C3_occupied_rejected gameOccupied true '1' (0, 0) (by decide)
    (by decide)
  exact ⟨h.1, h.2.1⟩

/-- One-key round: when the single supplied keypress produces a move, the
round reduces to the `check_win` dispatch on the updated game. -/
lemma round_one_key (g : Game) (key : Char)
    (hmv : (get_input g true key).moved = true) :
    round_step g [key] =
      (match check_win (get_input g true key).game.board with
       | some p => RoundOutcome.won p (get_input g true key).game
       | none => RoundOutcome.next (get_input g true key).game.switch,
       OutEvent.boardDraw g.board :: (get_input g true key).out) := by
  rw [round_step, input_loop]
  simp only [hmv, if_true]
  rcases check_win (get_input g true key).game.board with - | p <;> rfl

lemma initGame_get (r c : Fin 3) :
    initGame.board.get r c = CellState.Empty := by
  fin_cases r <;> fin_cases c <;> rfl

lemma check_win_first_move (i1 i2 : Fin 3) :
    check_win (initGame.board.set i1 i2 (markOf initGame.player)) = none := by
  fin_cases i1 <;> fin_cases i2 <;> rfl

/-- C4: from the initial state (Crosses/PlayerA active, empty board),
every successful single move leads to a `next` outcome whose active player
is Noughts; and in general, whenever a round ends in `next` (no win), the
active player has toggled, in both directions. -/
theorem C4_toggle :
    (∀ key : Char,
      (get_input initGame true key).moved = true →
      ∃ g', (round_step initGame [key]).1 = RoundOutcome.next g' ∧
        g'.player = Player.Noughts) ∧
    (∀ (g g' : Game) (keys : List Char) (out : List OutEvent),
      round_step g keys = (RoundOutcome.next g', out) →
      ((g.player = Player.Crosses → g'.player = Player.Noughts) ∧
       (g.player = Player.Noughts → g'.player = Player.Crosses))) := by
  constructor
  · intro key h
    rcases hk : resolve_key key with - | i
    · rw [get_input_none hk] at h
      exact nomatch h
    · have hemp : initGame.board.get i.1 i.2 = CellState.Empty :=
        initGame_get i.1 i.2
      have hg := @get_input_empty initGame true key i hk hemp
      refine ⟨⟨initGame.board.set i.1 i.2 (markOf initGame.player),
        Player.Noughts⟩, ?_, rfl⟩
      rw [round_one_key initGame key h, hg]
      rw [check_win_first_move i.1 i.2]
      rfl
  · intro g g' keys out h
    rw [round_step] at h
    rcases hm : (input_loop g true keys).moved with - | -
    · simp [hm] at h
    · rcases hw : check_win (input_loop g true keys).game.board with - | q
      · simp only [hm, hw, if_true, Prod.mk.injEq, RoundOutcome.next.injEq]
          at h
        have hp := input_loop_player keys g true
        refine ⟨fun hc => ?_, fun hn => ?_⟩
        · rw [← h.1, Game.switch_player, hp, hc]
        · rw [← h.1, Game.switch_player, hp, hn]
      · simp [hm, hw] at h

/-- C4 witness: pressing '1' first thing makes a move and hands the turn
to Noughts. -/
theorem C4_witness :
    ∃ g', (round_step initGame ['1']).1 = RoundOutcome.next g' ∧
      g'.player = Player.Noughts :=
  C4_toggle.1 '1' (by decide)

lemma round_step_game_board (g : Game) (keys : List Char) :
    (round_step g keys).1.game.board = (input_loop g true keys).game.board := by
  rw [round_step]
  rcases hm : (input_loop g true keys).moved with - | -
  · simp [hm, RoundOutcome.game]
  · rcases hw : check_win (input_loop g true keys).game.board with - | q
    · simp [hm, hw, RoundOutcome.game, Game.switch_board]
    · simp [hm, hw, RoundOutcome.game]

lemma run_keys_monotone :
    ∀ (keys : List Char) (g : Game) (r c : Fin 3),
      g.board.get r c ≠ CellState.Empty →
      (run_keys g keys).game.board.get r c ≠ CellState.Empty := by
  intro keys
  induction keys with
  | nil => intro g r c h; exact h
  | cons k ks ih =>
    intro g r c h
    rw [run_keys]
    have hb : (round_step g [k]).1.game.board.get r c ≠ CellState.Empty := by
      rw [round_step_game_board]
      exact input_loop_monotone [k] g true r c h
    rcases ho : round_step g [k] with ⟨outc, out⟩
    rw [ho] at hb
    rcases outc with ⟨p, g'⟩ | g' | g'
    · exact hb
    · exact ih g' r c hb
    · exact hb

/-- C8: the board always has exactly 9 cells (the `Board` type is a fixed
record of 9 `CellState` fields), and a cell that is non-Empty stays
non-Empty across every operation: a single `get_input` call, a whole
round of `main`'s loop, and any multi-round run. -/
theorem C8_marks_persist :
    (∀ (g : Game) (draw : Bool) (key : Char) (r c : Fin 3),
      g.board.get r c ≠ CellState.Empty →
      (get_input g draw key).game.board.get r c ≠ CellState.Empty) ∧
    (∀ (g : Game) (keys : List Char) (r c : Fin 3),
      g.board.get r c ≠ CellState.Empty →
      ((round_step g keys).1.game.board.get r c ≠ CellState.Empty ∧
       (run_keys g keys).game.board.get r c ≠ CellState.Empty)) := by
  refine ⟨get_input_monotone, ?_⟩
  intro g keys r c h
  constructor
  · rw [round_step_game_board]
    exact input_loop_monotone keys g true r c h
  · exact run_keys_monotone keys g r c h

/-- C8 witness: cell (0,0) of `gameOccupied` is marked and stays marked
through a round played with key '5'. -/
theorem C8_witness :
    (round_step gameOccupied ['5']).1.game.board.get 0 0 ≠
      CellState.Empty :=
  (C8_marks_persist.2 gameOccupied ['5'] 0 0 (by decide)).1

/-- C9: a successful move changes exactly the addressed cell, from Empty
to the active player's mark; the other eight cells and the active-player
field are untouched by `get_input` itself — and when the move wins the
round, the player field is still untouched (the toggle runs only on the
no-win path). -/
theorem C9_move_frame :
    (∀ (g : Game) (draw : Bool) (key : Char) (i : Fin 3 × Fin 3),
      resolve_key key = some i →
      g.board.get i.1 i.2 = CellState.Empty →
      ((get_input g draw key).moved = true ∧
       (get_input g draw key).game.board.get i.1 i.2 = markOf g.player ∧
       (∀ r c : Fin 3, ¬ (r = i.1 ∧ c = i.2) →
         (get_input g draw key).game.board.get r c = g.board.get r c) ∧
       (get_input g draw key).game.player = g.player)) ∧
    (∀ (g : Game) (keys : List Char) (p : Player) (g' : Game),
      (round_step g keys).1 = RoundOutcome.won p g' →
      g'.player = g.player) := by
  constructor
  · intro g draw key i hk hemp
    have hg := @get_input_empty g draw key i hk hemp
    rw [hg]
    refine ⟨rfl, ?_, ?_, rfl⟩
    · show (g.board.set i.1 i.2 (markOf g.player)).get i.1 i.2 =
        markOf g.player
      rw [Board.get_set, if_pos ⟨rfl, rfl⟩]
    · intro r c hrc
      show (g.board.set i.1 i.2 (markOf g.player)).get r c = g.board.get r c
      rw [Board.get_set, if_neg hrc]
  · intro g keys p g' h
    rw [round_step] at h
    rcases hm : (input_loop g true keys).moved with - | -
    · simp [hm] at h
    · rcases hw : check_win (input_loop g true keys).game.board with - | q
      · simp [hm, hw] at h
      · simp only [hm, hw, if_true, RoundOutcome.won.injEq] at h
        rw [← h.2]
        exact input_loop_player keys g true

/-- C9 witness: Crosses' opening move on key '5' marks cell (1,1) with a
Cross and leaves cell (0,0) Empty and the player field at Crosses. -/
theorem C9_witness :
    (get_input initGame true '5').game.board.get 1 1 =
      markOf Player.Crosses := by
  have h := C9_move_frame.1 initGame true '5' (1, 1) (by decide) (by decide)
  exact h.2.1

/-! ## Input resolution -/

lemma char_eq_of_toNat_eq {a b : Char} (h : a.toNat = b.toNat) : a = b := by
  rw [← Char.ofNat_toNat a, h, Char.ofNat_toNat]

lemma isDigit_toNat_bounds {c : Char} (h : c.isDigit = true) :
    48 ≤ c.toNat ∧ c.toNat ≤ 57 := by
  simp only [Char.isDigit, Bool.and_eq_true, decide_eq_true_eq, ge_iff_le]
    at h
  obtain ⟨h1, h2⟩ := h
  rw [UInt32.le_def, BitVec.le_def] at h1 h2
  exact ⟨h1, h2⟩

lemma resolve_key_eq_none {c : Char}
    (h : c ∉ (['1', '2', '3', '4', '5', '6', '7', '8', '9'] : List Char)) :
    resolve_key c = none := by
  unfold resolve_key
  by_cases hd : c.isDigit
  · rw [if_pos hd]
    obtain ⟨h1, h2⟩ := isDigit_toNat_bounds hd
    generalize hn : c.toNat = n
    rw [hn] at h1 h2
    interval_cases n
    · decide
    · exact absurd (by rw [@char_eq_of_toNat_eq c '1' hn]; decide) h
    · exact absurd (by rw [@char_eq_of_toNat_eq c '2' hn]; decide) h
    · exact absurd (by rw [@char_eq_of_toNat_eq c '3' hn]; decide) h
    · exact absurd (by rw [@char_eq_of_toNat_eq c '4' hn]; decide) h
    · exact absurd (by rw [@char_eq_of_toNat_eq c '5' hn]; decide) h
    · exact absurd (by rw [@char_eq_of_toNat_eq c '6' hn]; decide) h
    · exact absurd (by rw [@char_eq_of_toNat_eq c '7' hn]; decide) h
    · exact absurd (by rw [@char_eq_of_toNat_eq c '8' hn]; decide) h
    · exact absurd (by rw [@char_eq_of_toNat_eq c '9' hn]; decide) h
  · rw [if_neg hd]

/-- C5: the input resolver maps the nine characters '1'..'9' exactly to
the nine cells in the fixed layout (a bijection, as the nine listed images
are pairwise distinct and exhaust the 3×3 grid); every other character
resolves to no cell, and feeding such a character to `get_input` leaves
the game unchanged (`moved = false`). -/
theorem C5_input_bijection :
    (resolve_key '1' = some (0, 0) ∧ resolve_key '2' = some (0, 1) ∧
     resolve_key '3' = some (0, 2) ∧ resolve_key '4' = some (1, 0) ∧
     resolve_key '5' = some (1, 1) ∧ resolve_key '6' = some (1, 2) ∧
     resolve_key '7' = some (2, 0) ∧ resolve_key '8' = some (2, 1) ∧
     resolve_key '9' = some (2, 2)) ∧
    (∀ c : Char,
      c ∉ (['1', '2', '3', '4', '5', '6', '7', '8', '9'] : List Char) →
      resolve_key c = none) ∧
    (∀ (g : Game) (draw : Bool) (c : Char), resolve_key c = none →
      (get_input g draw c).game = g ∧ (get_input g draw c).moved = false) :=
  ⟨by decide, fun c h => resolve_key_eq_none h,
   fun g draw c h => by rw [get_input_none h]; exact ⟨rfl, rfl⟩⟩

/-- C5 witness: 'a' and '0' resolve to no cell and change nothing. -/
theorem C5_witness :
    resolve_key 'a' = none ∧ resolve_key '0' = none ∧
      (get_input initGame true 'a').game = initGame :=
  ⟨C5_input_bijection.2.1 'a' (by decide),
   C5_input_bijection.2.1 '0' (by decide),
   (C5_input_bijection.2.2 initGame true 'a' (by decide)).1⟩

/-! ## Rendering -/

lemma get_cell_eq (s : CellState) (i : Nat) :
    get_cell s i = (spec_token s (i + 1), i + 1) := by
  cases s <;> rfl

lemma draw_row_eq (c0 c1 c2 : CellState) (i : Nat) :
    draw_row c0 c1 c2 i =
      (spec_token c0 (i + 1) ++ " " ++ spec_token c1 (i + 2) ++ " " ++
        spec_token c2 (i + 3), i + 3) := by
  simp [draw_row, get_cell_eq]

/-- C6: rendering any board produces exactly 3 lines of 3 bracketed
tokens joined by single spaces: `"[X]"`/`"[O]"` for marked cells and
`"[n]"` with n the 1-based row-major position (1–9) for Empty cells,
independently of the other cells (the counter advances on every cell). -/
theorem C6_render (b : Board) :
    draw_board b = render_spec b ∧ (draw_board b).length = 3 := by
  constructor
  · show draw_board b = render_spec b
    simp [draw_board, render_spec, draw_row_eq]
  · rfl

/-! ## Console output per round -/

lemma input_loop_out_false :
    ∀ (keys : List Char) (g : Game), (input_loop g false keys).out = [] := by
  intro keys
  induction keys with
  | nil => intro g; rfl
  | cons k ks ih =>
    intro g
    rw [input_loop]
    have ho := get_input_out g false k
    rcases hm : (get_input g false k).moved with - | -
    · simp only [hm, Bool.false_eq_true, if_false]
      rw [ho, ih]
      rfl
    · simp only [hm, if_true]
      rw [ho]
      rfl

lemma input_loop_out_true (g : Game) (k : Char) (ks : List Char) :
    (input_loop g true (k :: ks)).out = [OutEvent.prompt g.player] := by
  rw [input_loop]
  have ho := get_input_out g true k
  rcases hm : (get_input g true k).moved with - | -
  · simp only [hm, Bool.false_eq_true, if_false]
    rw [ho, input_loop_out_false]
    rfl
  · simp only [hm, if_true]
    rw [ho]
    rfl

lemma round_step_out (g : Game) (keys : List Char) :
    (round_step g keys).2 =
      OutEvent.boardDraw g.board :: (input_loop g true keys).out := by
  rw [round_step]
  rcases hm : (input_loop g true keys).moved with - | -
  · simp [hm]
  · rcases hw : check_win (input_loop g true keys).game.board with - | q <;>
      simp [hm, hw]

/-- C7 counterexample: in a round whose first key 'a' is rejected, the
claimed re-printing of the prompt does not happen — the whole round's
output holds a single prompt, not two. -/
theorem C7_counterexample :
    (get_input initGame true 'a').moved = false ∧
      ¬ 2 ≤ (round_step initGame ['a', '1']).2.countP OutEvent.isPrompt := by
  constructor
  · rw [get_input_none (resolve_key_eq_none (by decide))]
  · rw [round_step_out, input_loop_out_true]
    decide

/-- C7 (amended): after a rejected input neither the prompt nor the board
is redrawn: each round prints the board exactly once (at its start) and
the prompt exactly once (with the first key it reads — zero prompts when
no key is available), however many rejections occur. -/
theorem C7_redraw_amended (g : Game) (keys : List Char) :
    (round_step g keys).2.countP OutEvent.isPrompt = min 1 keys.length ∧
      (round_step g keys).2.countP OutEvent.isBoardDraw = 1 := by
  have hout := round_step_out g keys
  rcases keys with - | ⟨k, ks⟩
  · rw [hout]
    exact ⟨rfl, rfl⟩
  · rw [hout, input_loop_out_true]
    constructor
    · simp only [List.length_cons]
      rw [Nat.min_eq_left (by omega)]
      rfl
    · rfl

/-! ## The missing draw detection -/

lemma full_board_rejects (g : Game) (h : board_full g.board) (key : Char)
    (draw : Bool) : (get_input g draw key).moved = false := by
  rcases hk : resolve_key key with - | i
  · rw [get_input_none hk]
  · rw [get_input_occupied hk (h i.1 i.2)]

/-- C2 (evidence of the bug): playing the draw sequence fills all 9 cells
with no winner, yet the outer loop is simply back at its top
(`RunState.playing`): no game-over state exists in the code, no draw is
reported, and from here every further keypress is rejected, so the game
never terminates. -/
theorem C2_no_draw_detection :
    (run_keys initGame drawKeys).isPlaying = true ∧
      board_full (run_keys initGame drawKeys).game.board ∧
      check_win (run_keys initGame drawKeys).game.board = none ∧
      ∀ (key : Char) (draw : Bool),
        (get_input (run_keys initGame drawKeys).game draw key).moved =
          false := by
  refine ⟨by decide, by decide, by decide, ?_⟩
  exact fun key draw => full_board_rejects _ (by decide) key draw
